import Mathlib

/-!
Shallow embedding of the order-lifecycle core of `src/main.py` (a Telegram
marketplace bot backed by SQLite).  The database is modelled as an explicit
record of tables (lists of rows); each handler or scheduler task becomes a
pure function from the database to a new database plus a result.  SQL
`UPDATE ... WHERE key=?` is modelled by mapping an id-preserving function over
the table, `SELECT ... WHERE key=?` by `List.find?`, `INSERT` by appending.
Integer coin columns (`balance_coins`, `frozen_total_coins`, `price_coins`,
`frozen_amount`) are SQLite INTEGERs with no constraint, so they are embedded
as `Int` (they may go negative; the schema defaults them to 0, and every code
path writes non-null values, so Python's `x or 0` / SQL `COALESCE(x,0)` are
the identity here).  Coordinates and radii (SQLite REAL) are embedded as `ℚ`.
-/

/-- Row of the `users` table (the columns the core logic touches). -/
structure UserRec where
  tg_id : Nat
  phone : Option String
  balance_coins : Int
  frozen_total_coins : Int
  status : String
  lat : Option ℚ
  lon : Option ℚ
deriving Repr, DecidableEq

/-- The `status` column of `orders` (a TEXT column in SQLite; the code only
ever writes these six values). -/
inductive OrderStatus where
  | PUBLISHED
  | AWAITING_CUSTOMER_CONFIRM
  | IN_PROGRESS
  | AWAITING_CLIENT_APPROVAL
  | COMPLETED
  | DISPUTE
deriving Repr, DecidableEq

/-- Row of the `orders` table (the columns the core logic touches).
`accept_ts` is an abstract timestamp (`CURRENT_TIMESTAMP` is passed in as a
`Nat` parameter where the code writes it). -/
structure Order where
  id : Nat
  creator_tg : Nat
  price_coins : Int
  lat : Option ℚ
  lon : Option ℚ
  radius_km : ℚ
  status : OrderStatus
  frozen_amount : Int
  accepted_by : Option Nat
  accept_ts : Option Nat
deriving Repr, DecidableEq

/-- Row of the `disputes` table. -/
structure Dispute where
  order_id : Nat
  claimant_tg : Nat
deriving Repr, DecidableEq

/-- Row of the `ratings` table (`stars` and `comment` are nullable). -/
structure Rating where
  order_id : Nat
  from_tg : Nat
  to_tg : Nat
  stars : Option Int
  comment : Option String
deriving Repr, DecidableEq

/-- The SQLite database: one list per table, plus the AUTOINCREMENT counter
for `orders.id`.  A `notifications` row is the pair (order_id, executor_tg). -/
structure DB where
  users : List UserRec
  orders : List Order
  disputes : List Dispute
  ratings : List Rating
  notifications : List (Nat × Nat)
  next_order_id : Nat
deriving Repr, DecidableEq

/-- `SELECT ... FROM users WHERE tg_id=?` (first matching row). -/
def findUser (db : DB) (tg : Nat) : Option UserRec :=
  db.users.find? (fun u => u.tg_id == tg)

/-- `SELECT ... FROM orders WHERE id=?` (first matching row). -/
def findOrder (db : DB) (oid : Nat) : Option Order :=
  db.orders.find? (fun o => o.id == oid)

/-- `UPDATE users SET ... WHERE tg_id=?`: apply `f` to every row with the
given `tg_id`. -/
def updateUser (db : DB) (tg : Nat) (f : UserRec → UserRec) : DB :=
  { db with users := db.users.map (fun u => if u.tg_id == tg then f u else u) }

/-- `UPDATE orders SET ... WHERE id=?`: apply `f` to every row with the
given `id`. -/
def updateOrder (db : DB) (oid : Nat) (f : Order → Order) : DB :=
  { db with orders := db.orders.map (fun o => if o.id == oid then f o else o) }

/-- Current balance of a user (0 when the row is absent, matching
`COALESCE`/Python `or 0` reads). -/
def balanceOf (db : DB) (tg : Nat) : Int :=
  ((findUser db tg).map (fun u => u.balance_coins)).getD 0

/-- Current frozen total of a user (0 when the row is absent). -/
def frozenOf (db : DB) (tg : Nat) : Int :=
  ((findUser db tg).map (fun u => u.frozen_total_coins)).getD 0

/-- Result of `create_order_and_reserve`. -/
inductive CreateResult where
  | ok (order_id : Nat)
  | user_not_found
  | insufficient_funds
deriving Repr, DecidableEq

/-- `create_order_and_reserve` (src/main.py:371-416): inside one
`BEGIN IMMEDIATE` transaction, read the creator's balance; if
`balance < price` roll back and report `insufficient_funds`; otherwise
`balance -= price; frozen += price` and INSERT the order row (schema defaults:
`status='PUBLISHED'`, `radius_km=INITIAL_RADIUS_KM`), `frozen_amount = price`.
The transaction is atomic by construction in this pure embedding. -/
def create_order_and_reserve (creator_tg : Nat) (price : Int)
    (lat lon : Option ℚ) (initial_radius : ℚ) (db : DB) : DB × CreateResult :=
  match findUser db creator_tg with
  | none => (db, .user_not_found)
  | some u =>
    if u.balance_coins < price then (db, .insufficient_funds)
    else
      let db1 := updateUser db creator_tg (fun v =>
        { v with balance_coins := v.balance_coins - price,
                 frozen_total_coins := v.frozen_total_coins + price })
      let oid := db1.next_order_id
      let newOrder : Order :=
        { id := oid, creator_tg := creator_tg, price_coins := price,
          lat := lat, lon := lon, radius_km := initial_radius,
          status := .PUBLISHED, frozen_amount := price,
          accepted_by := none, accept_ts := none }
      ({ db1 with orders := db1.orders ++ [newOrder],
                  next_order_id := oid + 1 }, .ok oid)

/-- Result of the state-transition callbacks. -/
inductive OpResult where
  | ok
  | rejected
  | not_found
deriving Repr, DecidableEq

/-- `callback_accept` (src/main.py:848-959), DB effect: under the per-order
lock, reject unless `status='PUBLISHED'`; otherwise set
`status='AWAITING_CUSTOMER_CONFIRM'`, `accepted_by`, `accept_ts=now`. -/
def callback_accept (executor_tg : Nat) (now : Nat) (order_id : Nat)
    (db : DB) : DB × OpResult :=
  match findOrder db order_id with
  | none => (db, .not_found)
  | some o =>
    if o.status ≠ .PUBLISHED then (db, .rejected)
    else
      (updateOrder db order_id (fun od =>
        { od with status := .AWAITING_CUSTOMER_CONFIRM,
                  accepted_by := some executor_tg,
                  accept_ts := some now }), .ok)

/-- `callback_customer_confirm` (src/main.py:966-998), DB effect: reject
unless `status='AWAITING_CUSTOMER_CONFIRM'`; otherwise `status='IN_PROGRESS'`. -/
def callback_customer_confirm (order_id : Nat) (db : DB) : DB × OpResult :=
  match findOrder db order_id with
  | none => (db, .not_found)
  | some o =>
    if o.status ≠ .AWAITING_CUSTOMER_CONFIRM then (db, .rejected)
    else (updateOrder db order_id (fun od => { od with status := .IN_PROGRESS }), .ok)

/-- `callback_customer_cancel` (src/main.py:1000-1032), DB effect: reject
unless `status='AWAITING_CUSTOMER_CONFIRM'`; otherwise, in one transaction,
`balance += frozen_amount; frozen -= frozen_amount` for the creator and
`status='PUBLISHED', accepted_by=NULL, accept_ts=NULL` on the order.  Note the
code performs no negativity check on the ledger update, and the order's
`frozen_amount` column is left untouched. -/
def callback_customer_cancel (order_id : Nat) (db : DB) : DB × OpResult :=
  match findOrder db order_id with
  | none => (db, .not_found)
  | some o =>
    if o.status ≠ .AWAITING_CUSTOMER_CONFIRM then (db, .rejected)
    else
      let fa := o.frozen_amount
      let db1 := updateUser db o.creator_tg (fun v =>
        { v with balance_coins := v.balance_coins + fa,
                 frozen_total_coins := v.frozen_total_coins - fa })
      (updateOrder db1 order_id (fun od =>
        { od with status := .PUBLISHED, accepted_by := none, accept_ts := none }), .ok)

/-- `callback_complete` (src/main.py:1034-1071), DB effect: reject unless
`status='IN_PROGRESS'` and the caller is the assigned executor; otherwise
`status='AWAITING_CLIENT_APPROVAL'`. -/
def callback_complete (executor_tg : Nat) (order_id : Nat) (db : DB) : DB × OpResult :=
  match findOrder db order_id with
  | none => (db, .not_found)
  | some o =>
    if o.status ≠ .IN_PROGRESS ∨ o.accepted_by ≠ some executor_tg then (db, .rejected)
    else
      (updateOrder db order_id (fun od =>
        { od with status := .AWAITING_CLIENT_APPROVAL }), .ok)

/-- `reset_user_location` (src/main.py:329-344): `lat=NULL, lon=NULL,
status='offline'` for one user. -/
def reset_user_location (tg : Nat) (db : DB) : DB :=
  updateUser db tg (fun v => { v with lat := none, lon := none, status := "offline" })

/-- `callback_approve` (src/main.py:1526-1613), DB effect: under the
per-order lock, reject unless `status='AWAITING_CLIENT_APPROVAL'`; reject if
`frozen_amount` is falsy (0) or `accepted_by` is NULL; otherwise, in one
transaction, `executor.balance += frozen_amount`,
`creator.frozen -= frozen_amount`, and `status='COMPLETED', frozen_amount=0`
on the order; after the commit the executor's location is reset.  The handler
never reads `call.from_user` for the transfer logic, so `caller_tg` is an
unused parameter, exactly as in the source. -/
def callback_approve (caller_tg : Nat) (order_id : Nat) (db : DB) : DB × OpResult :=
  match findOrder db order_id with
  | none => (db, .not_found)
  | some o =>
    if o.status ≠ .AWAITING_CLIENT_APPROVAL then (db, .rejected)
    else
      match o.accepted_by with
      | none => (db, .rejected)
      | some e =>
        if o.frozen_amount = 0 then (db, .rejected)
        else
          let fa := o.frozen_amount
          let db1 := updateUser db e (fun v =>
            { v with balance_coins := v.balance_coins + fa })
          let db2 := updateUser db1 o.creator_tg (fun v =>
            { v with frozen_total_coins := v.frozen_total_coins - fa })
          let db3 := updateOrder db2 order_id (fun od =>
            { od with status := .COMPLETED, frozen_amount := 0 })
          (reset_user_location e db3, .ok)

/-- The delayed task scheduled by `schedule_auto_release` (src/main.py:753-836),
DB effect: re-read the order; if it is still `AWAITING_CLIENT_APPROVAL` with a
truthy `frozen_amount` and a non-NULL `accepted_by`, perform the same
transaction as `callback_approve` (executor balance +=, creator frozen -=,
order COMPLETED / frozen_amount 0) and reset the executor's location;
otherwise do nothing.  No negativity check is performed on the ledger update. -/
def auto_release_task (order_id : Nat) (db : DB) : DB :=
  match findOrder db order_id with
  | none => db
  | some o =>
    if o.status ≠ .AWAITING_CLIENT_APPROVAL then db
    else
      match o.accepted_by with
      | none => db
      | some e =>
        if o.frozen_amount = 0 then db
        else
          let fa := o.frozen_amount
          let db1 := updateUser db e (fun v =>
            { v with balance_coins := v.balance_coins + fa })
          let db2 := updateUser db1 o.creator_tg (fun v =>
            { v with frozen_total_coins := v.frozen_total_coins - fa })
          let db3 := updateOrder db2 order_id (fun od =>
            { od with status := .COMPLETED, frozen_amount := 0 })
          reset_user_location e db3

/-- The delayed task scheduled by `schedule_accept_timeout`
(src/main.py:703-750): re-read the order; if it is still
`AWAITING_CUSTOMER_CONFIRM` with a non-NULL `accepted_by`, look up the
creator's phone and send the assigned executor an escalation message carrying
that phone (modelled as `some (executor, phone)`); otherwise no message.  The
task performs no database write at all: it returns the database unchanged in
every branch, exactly as the source only ever issues SELECTs here. -/
def accept_timeout_task (order_id : Nat) (db : DB) : DB × Option (Nat × Option String) :=
  match findOrder db order_id with
  | none => (db, none)
  | some o =>
    if o.status ≠ .AWAITING_CUSTOMER_CONFIRM then (db, none)
    else
      match o.accepted_by with
      | none => (db, none)
      | some e =>
        let phone := ((findUser db o.creator_tg).map (fun u => u.phone)).getD none
        (db, some (e, phone))

/-- Result of `callback_open_dispute`. -/
inductive DisputeResult where
  | ok
  | already_open
  | not_found
deriving Repr, DecidableEq

/-- `callback_open_dispute` (src/main.py:1075-1161), DB effect: if the order
does not exist, `not_found`; if a dispute row for this order already exists,
reject with "already open"; otherwise INSERT one dispute row and set
`status='DISPUTE'` on the order.  Note that the current order status is never
consulted: the transition is applied from any state, including COMPLETED. -/
def callback_open_dispute (claimant_tg : Nat) (order_id : Nat)
    (db : DB) : DB × DisputeResult :=
  match findOrder db order_id with
  | none => (db, .not_found)
  | some _ =>
    if db.disputes.any (fun d => d.order_id == order_id) then (db, .already_open)
    else
      let db1 := { db with disputes :=
        db.disputes ++ [{ order_id := order_id, claimant_tg := claimant_tg }] }
      (updateOrder db1 order_id (fun od => { od with status := .DISPUTE }), .ok)

/-- The non-null `stars` values of all rating rows targeting a user:
`SELECT stars FROM ratings WHERE to_tg=? AND stars IS NOT NULL`. -/
def starsReceived (db : DB) (to_tg : Nat) : List Int :=
  (db.ratings.filter (fun r => r.to_tg == to_tg && r.stars.isSome)).filterMap
    (fun r => r.stars)

/-- `compute_avg_rating` (src/main.py:1200-1213):
`SELECT AVG(stars) FROM ratings WHERE to_tg=? AND stars IS NOT NULL`;
SQL `AVG` over no rows is NULL, and the function then returns `None`.
Otherwise it returns the arithmetic mean as a float (here `ℚ`). -/
def compute_avg_rating (db : DB) (to_tg : Nat) : Option ℚ :=
  let stars := starsReceived db to_tg
  if stars.length = 0 then none
  else some ((stars.sum : ℚ) / (stars.length : ℚ))

/-- Bool guard of the outer SELECT of `expansion_job`:
`status='PUBLISHED' AND lat IS NOT NULL AND lon IS NOT NULL`. -/
def isPublishedLocated (o : Order) : Bool :=
  o.status == .PUBLISHED && o.lat.isSome && o.lon.isSome

/-- The notification part of one `expansion_job` iteration
(src/main.py:645-689): compute the executors already notified for this order,
the candidates inside the new radius, and INSERT one notification row for each
candidate not already notified. -/
def recordNewNotifications (findExec : ℚ → ℚ → ℚ → List Nat) (oid : Nat)
    (o : Order) (newR : ℚ) (db : DB) : DB :=
  (((findExec (o.lat.getD 0) (o.lon.getD 0) newR).filter (fun tg =>
      !(((db.notifications.filter (fun p => p.1 == oid)).map (fun p => p.2)).contains tg)))).foldl
    (fun d tg => { d with notifications := d.notifications ++ [(oid, tg)] }) db

/-- One iteration of the per-order loop of `expansion_job`
(src/main.py:615-700), for the order id `oid`, parameterised by the candidate
search `findExec lat lon radius` (abstracting `find_executors_within`, whose
haversine/sort/limit float math is irrelevant to the radius logic): re-read
the order; compute `new_radius = radius_km + step`; if `new_radius > maxR`
skip the order entirely (`continue`); otherwise record the new notification
rows and `UPDATE orders SET radius_km=new_radius`. -/
def expansion_order_step (findExec : ℚ → ℚ → ℚ → List Nat) (step maxR : ℚ)
    (oid : Nat) (db : DB) : DB :=
  match findOrder db oid with
  | none => db
  | some o =>
    if o.radius_km + step > maxR then db
    else
      updateOrder (recordNewNotifications findExec oid o (o.radius_km + step) db)
        oid (fun od => { od with radius_km := o.radius_km + step })

/-- `expansion_job` (src/main.py:615-700): select the ids of all PUBLISHED,
located orders, then run the per-order step on each in turn. -/
def expansion_job (findExec : ℚ → ℚ → ℚ → List Nat) (step maxR : ℚ)
    (db : DB) : DB :=
  ((db.orders.filter isPublishedLocated).map (fun o => o.id)).foldl
    (fun d oid => expansion_order_step findExec step maxR oid d) db

/-!  Helper lemmas about the table accessors. -/

theorem findUser_updateOrder (db : DB) (oid : Nat) (f : Order → Order) (tg : Nat) :
    findUser (updateOrder db oid f) tg = findUser db tg := rfl

theorem findOrder_updateUser (db : DB) (tg : Nat) (f : UserRec → UserRec) (oid : Nat) :
    findOrder (updateUser db tg f) oid = findOrder db oid := rfl

theorem balanceOf_updateOrder (db : DB) (oid : Nat) (f : Order → Order) (tg : Nat) :
    balanceOf (updateOrder db oid f) tg = balanceOf db tg := rfl

theorem frozenOf_updateOrder (db : DB) (oid : Nat) (f : Order → Order) (tg : Nat) :
    frozenOf (updateOrder db oid f) tg = frozenOf db tg := rfl

theorem findUser_tg_eq {db : DB} {t : Nat} {u : UserRec}
    (h : findUser db t = some u) : u.tg_id = t := by
  have := List.find?_some h
  simpa using this

theorem findOrder_id_eq {db : DB} {oid : Nat} {o : Order}
    (h : findOrder db oid = some o) : o.id = oid := by
  have := List.find?_some h
  simpa using this

theorem findUser_updateUser {db : DB} {tg : Nat} {f : UserRec → UserRec}
    (hf : ∀ u, (f u).tg_id = u.tg_id) (t : Nat) :
    findUser (updateUser db tg f) t
      = (findUser db t).map (fun u => if u.tg_id == tg then f u else u) := by
  unfold findUser updateUser
  rw [List.find?_map]
  have hpg : ((fun u : UserRec => u.tg_id == t) ∘
      (fun u => if u.tg_id == tg then f u else u)) = (fun u : UserRec => u.tg_id == t) := by
    funext u
    by_cases h : u.tg_id = tg <;> simp [Function.comp, h, hf]
  rw [hpg]

theorem findUser_updateUser_some {db : DB} {tg t : Nat} {f : UserRec → UserRec}
    {u : UserRec} (hf : ∀ v, (f v).tg_id = v.tg_id) (h : findUser db t = some u) :
    findUser (updateUser db tg f) t = some (if t == tg then f u else u) := by
  rw [findUser_updateUser hf, h]
  have ht := findUser_tg_eq h
  simp [ht]

theorem findUser_updateUser_none {db : DB} {tg t : Nat} {f : UserRec → UserRec}
    (hf : ∀ v, (f v).tg_id = v.tg_id) (h : findUser db t = none) :
    findUser (updateUser db tg f) t = none := by
  rw [findUser_updateUser hf, h]
  rfl

theorem balanceOf_updateUser_self {db : DB} {tg : Nat} {f : UserRec → UserRec}
    {u : UserRec} (hf : ∀ v, (f v).tg_id = v.tg_id) (h : findUser db tg = some u) :
    balanceOf (updateUser db tg f) tg = (f u).balance_coins := by
  unfold balanceOf
  rw [findUser_updateUser_some hf h]
  simp

theorem frozenOf_updateUser_self {db : DB} {tg : Nat} {f : UserRec → UserRec}
    {u : UserRec} (hf : ∀ v, (f v).tg_id = v.tg_id) (h : findUser db tg = some u) :
    frozenOf (updateUser db tg f) tg = (f u).frozen_total_coins := by
  unfold frozenOf
  rw [findUser_updateUser_some hf h]
  simp

theorem balanceOf_updateUser_pres {db : DB} {tg : Nat} {f : UserRec → UserRec}
    (hf : ∀ v, (f v).tg_id = v.tg_id)
    (hb : ∀ v, (f v).balance_coins = v.balance_coins) (t : Nat) :
    balanceOf (updateUser db tg f) t = balanceOf db t := by
  unfold balanceOf
  rw [findUser_updateUser hf]
  cases h : findUser db t
  · rfl
  · rename_i u
    by_cases hc : u.tg_id = tg <;> simp [hc, hb]

theorem frozenOf_updateUser_pres {db : DB} {tg : Nat} {f : UserRec → UserRec}
    (hf : ∀ v, (f v).tg_id = v.tg_id)
    (hb : ∀ v, (f v).frozen_total_coins = v.frozen_total_coins) (t : Nat) :
    frozenOf (updateUser db tg f) t = frozenOf db t := by
  unfold frozenOf
  rw [findUser_updateUser hf]
  cases h : findUser db t
  · rfl
  · rename_i u
    by_cases hc : u.tg_id = tg <;> simp [hc, hb]

theorem findOrder_updateOrder {db : DB} {oid : Nat} {f : Order → Order}
    (hf : ∀ o, (f o).id = o.id) (t : Nat) :
    findOrder (updateOrder db oid f) t
      = (findOrder db t).map (fun o => if o.id == oid then f o else o) := by
  unfold findOrder updateOrder
  rw [List.find?_map]
  have hpg : ((fun o : Order => o.id == t) ∘
      (fun o => if o.id == oid then f o else o)) = (fun o : Order => o.id == t) := by
    funext o
    by_cases h : o.id = oid <;> simp [Function.comp, h, hf]
  rw [hpg]

theorem findOrder_updateOrder_self {db : DB} {oid : Nat} {f : Order → Order}
    {o : Order} (hf : ∀ x, (f x).id = x.id) (h : findOrder db oid = some o) :
    findOrder (updateOrder db oid f) oid = some (f o) := by
  rw [findOrder_updateOrder hf, h]
  have ht := findOrder_id_eq h
  simp [ht]

theorem findOrder_updateOrder_of_ne {db : DB} {oid t : Nat} {f : Order → Order}
    (hf : ∀ x, (f x).id = x.id) (h : t ≠ oid) :
    findOrder (updateOrder db oid f) t = findOrder db t := by
  rw [findOrder_updateOrder hf]
  cases hx : findOrder db t
  · rfl
  · rename_i o
    have := findOrder_id_eq hx
    simp [this, h]

theorem balanceOf_reset (e : Nat) (db : DB) (t : Nat) :
    balanceOf (reset_user_location e db) t = balanceOf db t := by
  unfold reset_user_location
  refine balanceOf_updateUser_pres ?_ ?_ t <;> intro v <;> rfl

theorem frozenOf_reset (e : Nat) (db : DB) (t : Nat) :
    frozenOf (reset_user_location e db) t = frozenOf db t := by
  unfold reset_user_location
  refine frozenOf_updateUser_pres ?_ ?_ t <;> intro v <;> rfl

theorem findOrder_reset (e : Nat) (db : DB) (oid : Nat) :
    findOrder (reset_user_location e db) oid = findOrder db oid := rfl

theorem findUser_isSome_updateUser {db : DB} {tg : Nat} {f : UserRec → UserRec}
    (hf : ∀ v, (f v).tg_id = v.tg_id) (t : Nat) :
    (findUser (updateUser db tg f) t).isSome = (findUser db t).isSome := by
  rw [findUser_updateUser hf]
  cases findUser db t <;> rfl

theorem balanceOf_of_some {db : DB} {tg : Nat} {u : UserRec}
    (h : findUser db tg = some u) : balanceOf db tg = u.balance_coins := by
  unfold balanceOf
  rw [h]
  rfl

theorem frozenOf_of_some {db : DB} {tg : Nat} {u : UserRec}
    (h : findUser db tg = some u) : frozenOf db tg = u.frozen_total_coins := by
  unfold frozenOf
  rw [h]
  rfl

/-!  Specialised forms for the four ledger-update shapes in the source. -/

theorem balanceOf_addBalance_self {db : DB} {tg : Nat} (a : Int)
    (h : (findUser db tg).isSome) :
    balanceOf (updateUser db tg (fun v =>
      { v with balance_coins := v.balance_coins + a })) tg = balanceOf db tg + a := by
  obtain ⟨u, hu⟩ := Option.isSome_iff_exists.mp h
  have h1 : balanceOf (updateUser db tg (fun v =>
      { v with balance_coins := v.balance_coins + a })) tg
      = u.balance_coins + a := by
    apply balanceOf_updateUser_self
    · intro v; rfl
    · exact hu
  rw [h1, balanceOf_of_some hu]

theorem frozenOf_addBalance_pres (db : DB) (tg : Nat) (a : Int) (t : Nat) :
    frozenOf (updateUser db tg (fun v =>
      { v with balance_coins := v.balance_coins + a })) t = frozenOf db t := by
  refine frozenOf_updateUser_pres ?_ ?_ t <;> intro v <;> rfl

theorem frozenOf_subFrozen_self {db : DB} {tg : Nat} (a : Int)
    (h : (findUser db tg).isSome) :
    frozenOf (updateUser db tg (fun v =>
      { v with frozen_total_coins := v.frozen_total_coins - a })) tg
      = frozenOf db tg - a := by
  obtain ⟨u, hu⟩ := Option.isSome_iff_exists.mp h
  have h1 : frozenOf (updateUser db tg (fun v =>
      { v with frozen_total_coins := v.frozen_total_coins - a })) tg
      = u.frozen_total_coins - a := by
    apply frozenOf_updateUser_self
    · intro v; rfl
    · exact hu
  rw [h1, frozenOf_of_some hu]

theorem balanceOf_subFrozen_pres (db : DB) (tg : Nat) (a : Int) (t : Nat) :
    balanceOf (updateUser db tg (fun v =>
      { v with frozen_total_coins := v.frozen_total_coins - a })) t = balanceOf db t := by
  refine balanceOf_updateUser_pres ?_ ?_ t <;> intro v <;> rfl

theorem balanceOf_release_self {db : DB} {tg : Nat} (a : Int)
    (h : (findUser db tg).isSome) :
    balanceOf (updateUser db tg (fun v =>
      { v with balance_coins := v.balance_coins + a,
               frozen_total_coins := v.frozen_total_coins - a })) tg
      = balanceOf db tg + a := by
  obtain ⟨u, hu⟩ := Option.isSome_iff_exists.mp h
  have h1 : balanceOf (updateUser db tg (fun v =>
      { v with balance_coins := v.balance_coins + a,
               frozen_total_coins := v.frozen_total_coins - a })) tg
      = u.balance_coins + a := by
    apply balanceOf_updateUser_self
    · intro v; rfl
    · exact hu
  rw [h1, balanceOf_of_some hu]

theorem frozenOf_release_self {db : DB} {tg : Nat} (a : Int)
    (h : (findUser db tg).isSome) :
    frozenOf (updateUser db tg (fun v =>
      { v with balance_coins := v.balance_coins + a,
               frozen_total_coins := v.frozen_total_coins - a })) tg
      = frozenOf db tg - a := by
  obtain ⟨u, hu⟩ := Option.isSome_iff_exists.mp h
  have h1 : frozenOf (updateUser db tg (fun v =>
      { v with balance_coins := v.balance_coins + a,
               frozen_total_coins := v.frozen_total_coins - a })) tg
      = u.frozen_total_coins - a := by
    apply frozenOf_updateUser_self
    · intro v; rfl
    · exact hu
  rw [h1, frozenOf_of_some hu]

theorem balanceOf_reserve_self {db : DB} {tg : Nat} (a : Int)
    (h : (findUser db tg).isSome) :
    balanceOf (updateUser db tg (fun v =>
      { v with balance_coins := v.balance_coins - a,
               frozen_total_coins := v.frozen_total_coins + a })) tg
      = balanceOf db tg - a := by
  obtain ⟨u, hu⟩ := Option.isSome_iff_exists.mp h
  have h1 : balanceOf (updateUser db tg (fun v =>
      { v with balance_coins := v.balance_coins - a,
               frozen_total_coins := v.frozen_total_coins + a })) tg
      = u.balance_coins - a := by
    apply balanceOf_updateUser_self
    · intro v; rfl
    · exact hu
  rw [h1, balanceOf_of_some hu]

theorem frozenOf_reserve_self {db : DB} {tg : Nat} (a : Int)
    (h : (findUser db tg).isSome) :
    frozenOf (updateUser db tg (fun v =>
      { v with balance_coins := v.balance_coins - a,
               frozen_total_coins := v.frozen_total_coins + a })) tg
      = frozenOf db tg + a := by
  obtain ⟨u, hu⟩ := Option.isSome_iff_exists.mp h
  have h1 : frozenOf (updateUser db tg (fun v =>
      { v with balance_coins := v.balance_coins - a,
               frozen_total_coins := v.frozen_total_coins + a })) tg
      = u.frozen_total_coins + a := by
    apply frozenOf_updateUser_self
    · intro v; rfl
    · exact hu
  rw [h1, frozenOf_of_some hu]

/-!  Operation-level unfolding lemmas. -/

theorem approve_unfold_ok {caller oid : Nat} {db : DB} {o : Order} {e : Nat}
    (ho : findOrder db oid = some o)
    (hs : o.status = OrderStatus.AWAITING_CLIENT_APPROVAL)
    (hfa : o.frozen_amount ≠ 0)
    (hacc : o.accepted_by = some e) :
    callback_approve caller oid db =
      (reset_user_location e
        (updateOrder
          (updateUser
            (updateUser db e (fun v =>
              { v with balance_coins := v.balance_coins + o.frozen_amount }))
            o.creator_tg (fun v =>
              { v with frozen_total_coins := v.frozen_total_coins - o.frozen_amount }))
          oid (fun od =>
            { od with status := OrderStatus.COMPLETED, frozen_amount := 0 })),
       OpResult.ok) := by
  unfold callback_approve
  rw [ho]
  simp [hs, hacc, hfa]

theorem approve_rejected_of_status {caller oid : Nat} {db : DB} {o : Order}
    (ho : findOrder db oid = some o)
    (hs : o.status ≠ OrderStatus.AWAITING_CLIENT_APPROVAL) :
    callback_approve caller oid db = (db, OpResult.rejected) := by
  unfold callback_approve
  rw [ho]
  simp [hs]

theorem approve_effects {caller oid : Nat} {db : DB} {o : Order} {e : Nat}
    (ho : findOrder db oid = some o)
    (hs : o.status = OrderStatus.AWAITING_CLIENT_APPROVAL)
    (hfa : o.frozen_amount ≠ 0)
    (hacc : o.accepted_by = some e)
    (hue : (findUser db e).isSome)
    (huc : (findUser db o.creator_tg).isSome) :
    (callback_approve caller oid db).2 = OpResult.ok ∧
    balanceOf (callback_approve caller oid db).1 e = balanceOf db e + o.frozen_amount ∧
    frozenOf (callback_approve caller oid db).1 o.creator_tg
      = frozenOf db o.creator_tg - o.frozen_amount ∧
    findOrder (callback_approve caller oid db).1 oid
      = some { o with status := OrderStatus.COMPLETED, frozen_amount := 0 } := by
  rw [approve_unfold_ok ho hs hfa hacc]
  refine ⟨rfl, ?_, ?_, ?_⟩
  · rw [balanceOf_reset, balanceOf_updateOrder, balanceOf_subFrozen_pres]
    exact balanceOf_addBalance_self o.frozen_amount hue
  · rw [frozenOf_reset, frozenOf_updateOrder]
    have hc1 : (findUser (updateUser db e (fun v =>
        { v with balance_coins := v.balance_coins + o.frozen_amount }))
        o.creator_tg).isSome := by
      have heq : (findUser (updateUser db e (fun v =>
          { v with balance_coins := v.balance_coins + o.frozen_amount }))
          o.creator_tg).isSome = (findUser db o.creator_tg).isSome := by
        apply findUser_isSome_updateUser
        intro v; rfl
      rw [heq]
      exact huc
    rw [frozenOf_subFrozen_self o.frozen_amount hc1, frozenOf_addBalance_pres]
  · rw [findOrder_reset]
    have ho2 : findOrder (updateUser
        (updateUser db e (fun v =>
          { v with balance_coins := v.balance_coins + o.frozen_amount }))
        o.creator_tg (fun v =>
          { v with frozen_total_coins := v.frozen_total_coins - o.frozen_amount }))
        oid = some o := ho
    exact findOrder_updateOrder_self (fun x => rfl) ho2

theorem auto_release_eq_approve_fst (caller oid : Nat) (db : DB) :
    auto_release_task oid db = (callback_approve caller oid db).1 := by
  unfold auto_release_task callback_approve
  cases ho : findOrder db oid
  · rfl
  · rename_i o
    by_cases hs : o.status = OrderStatus.AWAITING_CLIENT_APPROVAL
    · cases hacc : o.accepted_by
      · simp [hs, hacc]
      · rename_i e
        by_cases hfa : o.frozen_amount = 0 <;> simp [hs, hacc, hfa]
    · simp [hs]

theorem auto_release_noop {oid : Nat} {db : DB} {o : Order}
    (ho : findOrder db oid = some o)
    (hn : ¬(o.status = OrderStatus.AWAITING_CLIENT_APPROVAL ∧
            o.frozen_amount ≠ 0 ∧ o.accepted_by.isSome)) :
    auto_release_task oid db = db := by
  unfold auto_release_task
  rw [ho]
  by_cases hs : o.status = OrderStatus.AWAITING_CLIENT_APPROVAL
  · cases hacc : o.accepted_by
    · simp [hs, hacc]
    · rename_i e
      by_cases hfa : o.frozen_amount = 0
      · simp [hs, hacc, hfa]
      · exact absurd ⟨hs, hfa, by simp [hacc]⟩ hn
  · simp [hs]

theorem cancel_unfold_ok {oid : Nat} {db : DB} {o : Order}
    (ho : findOrder db oid = some o)
    (hs : o.status = OrderStatus.AWAITING_CUSTOMER_CONFIRM) :
    callback_customer_cancel oid db =
      (updateOrder
        (updateUser db o.creator_tg (fun v =>
          { v with balance_coins := v.balance_coins + o.frozen_amount,
                   frozen_total_coins := v.frozen_total_coins - o.frozen_amount }))
        oid (fun od =>
          { od with status := OrderStatus.PUBLISHED,
                    accepted_by := none, accept_ts := none }),
       OpResult.ok) := by
  unfold callback_customer_cancel
  rw [ho]
  simp [hs]

theorem cancel_rejected_of_status {oid : Nat} {db : DB} {o : Order}
    (ho : findOrder db oid = some o)
    (hs : o.status ≠ OrderStatus.AWAITING_CUSTOMER_CONFIRM) :
    callback_customer_cancel oid db = (db, OpResult.rejected) := by
  unfold callback_customer_cancel
  rw [ho]
  simp [hs]

theorem cancel_effects {oid : Nat} {db : DB} {o : Order}
    (ho : findOrder db oid = some o)
    (hs : o.status = OrderStatus.AWAITING_CUSTOMER_CONFIRM)
    (huc : (findUser db o.creator_tg).isSome) :
    (callback_customer_cancel oid db).2 = OpResult.ok ∧
    balanceOf (callback_customer_cancel oid db).1 o.creator_tg
      = balanceOf db o.creator_tg + o.frozen_amount ∧
    frozenOf (callback_customer_cancel oid db).1 o.creator_tg
      = frozenOf db o.creator_tg - o.frozen_amount ∧
    findOrder (callback_customer_cancel oid db).1 oid
      = some { o with status := OrderStatus.PUBLISHED,
                      accepted_by := none, accept_ts := none } := by
  rw [cancel_unfold_ok ho hs]
  refine ⟨rfl, ?_, ?_, ?_⟩
  · rw [balanceOf_updateOrder]
    exact balanceOf_release_self o.frozen_amount huc
  · rw [frozenOf_updateOrder]
    exact frozenOf_release_self o.frozen_amount huc
  · have ho2 : findOrder (updateUser db o.creator_tg (fun v =>
        { v with balance_coins := v.balance_coins + o.frozen_amount,
                 frozen_total_coins := v.frozen_total_coins - o.frozen_amount }))
        oid = some o := ho
    exact findOrder_updateOrder_self (fun x => rfl) ho2

/-!  Lemmas about the expansion job. -/

theorem orders_recordNewNotifications (fE : ℚ → ℚ → ℚ → List Nat) (oid : Nat)
    (o : Order) (newR : ℚ) (db : DB) :
    (recordNewNotifications fE oid o newR db).orders = db.orders := by
  unfold recordNewNotifications
  generalize ((fE (o.lat.getD 0) (o.lon.getD 0) newR).filter _) = l
  induction l generalizing db with
  | nil => rfl
  | cons a rest ih => exact ih _

theorem findOrder_recordNewNotifications (fE : ℚ → ℚ → ℚ → List Nat) (oid : Nat)
    (o : Order) (newR : ℚ) (db : DB) (t : Nat) :
    findOrder (recordNewNotifications fE oid o newR db) t = findOrder db t := by
  unfold findOrder
  rw [orders_recordNewNotifications]

theorem findOrder_setRadius_of_ne (db : DB) (oid : Nat) (r : ℚ) {t : Nat}
    (h : t ≠ oid) :
    findOrder (updateOrder db oid (fun od => { od with radius_km := r })) t
      = findOrder db t := by
  refine findOrder_updateOrder_of_ne ?_ h
  intro x
  rfl

theorem findOrder_setRadius_self {db : DB} {oid : Nat} {o : Order} (r : ℚ)
    (h : findOrder db oid = some o) :
    findOrder (updateOrder db oid (fun od => { od with radius_km := r })) oid
      = some { o with radius_km := r } := by
  refine findOrder_updateOrder_self ?_ h
  intro x
  rfl

theorem expansion_step_preserves_other {fE : ℚ → ℚ → ℚ → List Nat}
    {step maxR : ℚ} {oid t : Nat} {db : DB} (h : t ≠ oid) :
    findOrder (expansion_order_step fE step maxR oid db) t = findOrder db t := by
  unfold expansion_order_step
  cases ho : findOrder db oid
  · rfl
  · rename_i o
    by_cases hr : o.radius_km + step > maxR
    · simp [hr]
    · simp only [hr, if_false]
      rw [findOrder_setRadius_of_ne _ _ _ h, findOrder_recordNewNotifications]

theorem foldl_expansion_preserves {fE : ℚ → ℚ → ℚ → List Nat}
    {step maxR : ℚ} {t : Nat} :
    ∀ (l : List Nat), t ∉ l → ∀ (db : DB),
      findOrder (l.foldl (fun d oid => expansion_order_step fE step maxR oid d) db) t
        = findOrder db t
  | [], _, _ => rfl
  | a :: rest, h, db => by
    have hta : t ≠ a := fun e => h (by simp [e])
    have hrest : t ∉ rest := fun hm => h (List.mem_cons_of_mem a hm)
    rw [List.foldl_cons, foldl_expansion_preserves rest hrest _]
    exact expansion_step_preserves_other hta

theorem expansion_step_self {fE : ℚ → ℚ → ℚ → List Nat} {step maxR : ℚ}
    {oid : Nat} {db : DB} {o : Order} (ho : findOrder db oid = some o) :
    findOrder (expansion_order_step fE step maxR oid db) oid =
      some (if o.radius_km + step > maxR then o
            else { o with radius_km := o.radius_km + step }) := by
  unfold expansion_order_step
  rw [ho]
  by_cases hr : o.radius_km + step > maxR
  · simp [hr, ho]
  · simp only [hr, if_false]
    have ho2 : findOrder (recordNewNotifications fE oid o (o.radius_km + step) db) oid
        = some o := by
      rw [findOrder_recordNewNotifications]
      exact ho
    exact findOrder_setRadius_self _ ho2

theorem ids_nodup {db : DB}
    (hnd : (db.orders.map (fun x => x.id)).Nodup) :
    ((db.orders.filter isPublishedLocated).map (fun x => x.id)).Nodup :=
  List.Nodup.sublist (List.Sublist.map _ (List.filter_sublist _)) hnd

theorem oid_mem_ids_iff {db : DB} {oid : Nat} {o : Order}
    (hnd : (db.orders.map (fun x => x.id)).Nodup)
    (ho : findOrder db oid = some o) :
    oid ∈ (db.orders.filter isPublishedLocated).map (fun x => x.id)
      ↔ isPublishedLocated o = true := by
  constructor
  · intro hm
    obtain ⟨o2, ho2mem, ho2id⟩ := List.mem_map.mp hm
    have ho2orders : o2 ∈ db.orders := List.mem_of_mem_filter ho2mem
    have hP : isPublishedLocated o2 = true := List.of_mem_filter ho2mem
    have heq : o2 = o := by
      apply List.inj_on_of_nodup_map hnd ho2orders (List.mem_of_find?_eq_some ho)
      rw [ho2id, findOrder_id_eq ho]
    rwa [heq] at hP
  · intro hP
    exact List.mem_map.mpr
      ⟨o, List.mem_filter.mpr ⟨List.mem_of_find?_eq_some ho, hP⟩, findOrder_id_eq ho⟩

/-!  Frame lemmas for the record updates used by `create_order_and_reserve`
and `callback_open_dispute`. -/

theorem balanceOf_set_orders (db : DB) (os : List Order) (n : Nat) (t : Nat) :
    balanceOf { db with orders := os, next_order_id := n } t = balanceOf db t := rfl

theorem frozenOf_set_orders (db : DB) (os : List Order) (n : Nat) (t : Nat) :
    frozenOf { db with orders := os, next_order_id := n } t = frozenOf db t := rfl

/-!  Example data used by the concrete instantiations below. -/

def exCreator_C2 : UserRec :=
  { tg_id := 10, phone := none, balance_coins := 50000, frozen_total_coins := 50000,
    status := "available", lat := none, lon := none }

def exExec_C2 : UserRec :=
  { tg_id := 20, phone := none, balance_coins := 0, frozen_total_coins := 0,
    status := "available", lat := some 41, lon := some 69 }

def exOrder_C2 : Order :=
  { id := 1, creator_tg := 10, price_coins := 50000, lat := none, lon := none,
    radius_km := 7/2, status := .AWAITING_CLIENT_APPROVAL, frozen_amount := 50000,
    accepted_by := some 20, accept_ts := some 100 }

def exDB_C2 : DB :=
  { users := [exCreator_C2, exExec_C2], orders := [exOrder_C2],
    disputes := [], ratings := [], notifications := [], next_order_id := 2 }

/-- C2: from `AWAITING_CLIENT_APPROVAL` with a nonzero `frozen_amount` and an
assigned executor, `callback_approve` reports ok, adds `frozen_amount` to the
executor's balance, subtracts it from the creator's frozen total, and rewrites
the order to `COMPLETED` with `frozen_amount = 0`, all in the single committed
result state; from any other order status it returns `rejected` with the
database unchanged. -/
theorem C2_approve_spec (caller oid : Nat) (db : DB) :
    (∀ o e, findOrder db oid = some o →
      o.status = OrderStatus.AWAITING_CLIENT_APPROVAL →
      o.frozen_amount ≠ 0 → o.accepted_by = some e →
      (findUser db e).isSome → (findUser db o.creator_tg).isSome →
      (callback_approve caller oid db).2 = OpResult.ok ∧
      balanceOf (callback_approve caller oid db).1 e
        = balanceOf db e + o.frozen_amount ∧
      frozenOf (callback_approve caller oid db).1 o.creator_tg
        = frozenOf db o.creator_tg - o.frozen_amount ∧
      findOrder (callback_approve caller oid db).1 oid
        = some { o with status := OrderStatus.COMPLETED, frozen_amount := 0 }) ∧
    (∀ o, findOrder db oid = some o →
      o.status ≠ OrderStatus.AWAITING_CLIENT_APPROVAL →
      callback_approve caller oid db = (db, OpResult.rejected)) := by
  constructor
  · intro o e ho hs hfa hacc hue huc
    exact approve_effects ho hs hfa hacc hue huc
  · intro o ho hs
    exact approve_rejected_of_status ho hs

theorem C2_witness :
    (callback_approve 10 1 exDB_C2).2 = OpResult.ok ∧
    balanceOf (callback_approve 10 1 exDB_C2).1 20
      = balanceOf exDB_C2 20 + exOrder_C2.frozen_amount ∧
    frozenOf (callback_approve 10 1 exDB_C2).1 exOrder_C2.creator_tg
      = frozenOf exDB_C2 exOrder_C2.creator_tg - exOrder_C2.frozen_amount ∧
    findOrder (callback_approve 10 1 exDB_C2).1 1
      = some { exOrder_C2 with status := OrderStatus.COMPLETED, frozen_amount := 0 } :=
  (C2_approve_spec 10 1 exDB_C2).1 exOrder_C2 20 rfl rfl (by decide) rfl rfl rfl

def exCreator_C3 : UserRec :=
  { tg_id := 10, phone := none, balance_coins := 100000, frozen_total_coins := 0,
    status := "available", lat := none, lon := none }

def exDB_C3 : DB :=
  { users := [exCreator_C3], orders := [], disputes := [], ratings := [],
    notifications := [], next_order_id := 1 }

/-- C3: order creation atomically checks the creator's balance: with
`balance ≥ price` it reports ok, debits `price` from the balance, credits
`price` to the frozen total, and appends exactly one order row in state
`PUBLISHED` with `frozen_amount = price`; with `balance < price` it returns
`insufficient_funds` and the database is entirely unchanged. -/
theorem C3_create_spec (creator : Nat) (price : Int) (lat lon : Option ℚ)
    (r0 : ℚ) (db : DB) :
    (∀ u, findUser db creator = some u → price ≤ u.balance_coins →
      (create_order_and_reserve creator price lat lon r0 db).2
        = CreateResult.ok db.next_order_id ∧
      balanceOf (create_order_and_reserve creator price lat lon r0 db).1 creator
        = balanceOf db creator - price ∧
      frozenOf (create_order_and_reserve creator price lat lon r0 db).1 creator
        = frozenOf db creator + price ∧
      (create_order_and_reserve creator price lat lon r0 db).1.orders
        = db.orders ++
          [{ id := db.next_order_id, creator_tg := creator, price_coins := price,
             lat := lat, lon := lon, radius_km := r0,
             status := OrderStatus.PUBLISHED, frozen_amount := price,
             accepted_by := none, accept_ts := none }]) ∧
    (∀ u, findUser db creator = some u → u.balance_coins < price →
      create_order_and_reserve creator price lat lon r0 db
        = (db, CreateResult.insufficient_funds)) := by
  constructor
  · intro u hu hle
    have hnlt : ¬ u.balance_coins < price := not_lt.mpr hle
    have hstep : create_order_and_reserve creator price lat lon r0 db =
        ({ updateUser db creator (fun v =>
             { v with balance_coins := v.balance_coins - price,
                      frozen_total_coins := v.frozen_total_coins + price }) with
           orders := (updateUser db creator (fun v =>
             { v with balance_coins := v.balance_coins - price,
                      frozen_total_coins := v.frozen_total_coins + price })).orders ++
             [{ id := db.next_order_id, creator_tg := creator, price_coins := price,
                lat := lat, lon := lon, radius_km := r0,
                status := OrderStatus.PUBLISHED, frozen_amount := price,
                accepted_by := none, accept_ts := none }],
           next_order_id := db.next_order_id + 1 }, CreateResult.ok db.next_order_id) := by
      unfold create_order_and_reserve
      rw [hu]
      simp only [hnlt, if_false]
      rfl
    rw [hstep]
    have hSome : (findUser db creator).isSome := by
      rw [hu]
      rfl
    refine ⟨rfl, ?_, ?_, rfl⟩
    · rw [balanceOf_set_orders]
      exact balanceOf_reserve_self price hSome
    · rw [frozenOf_set_orders]
      exact frozenOf_reserve_self price hSome
  · intro u hu hlt
    unfold create_order_and_reserve
    rw [hu]
    simp [hlt]

theorem C3_witness :
    (create_order_and_reserve 10 50000 none none (7/2) exDB_C3).2
      = CreateResult.ok exDB_C3.next_order_id ∧
    balanceOf (create_order_and_reserve 10 50000 none none (7/2) exDB_C3).1 10
      = balanceOf exDB_C3 10 - 50000 ∧
    frozenOf (create_order_and_reserve 10 50000 none none (7/2) exDB_C3).1 10
      = frozenOf exDB_C3 10 + 50000 ∧
    (create_order_and_reserve 10 50000 none none (7/2) exDB_C3).1.orders
      = exDB_C3.orders ++
        [{ id := exDB_C3.next_order_id, creator_tg := 10, price_coins := 50000,
           lat := none, lon := none, radius_km := 7/2,
           status := OrderStatus.PUBLISHED, frozen_amount := 50000,
           accepted_by := none, accept_ts := none }] :=
  (C3_create_spec 10 50000 none none (7/2) exDB_C3).1 exCreator_C3 rfl (by decide)

/-- C10: the effect of `callback_approve` is independent of the caller's
identity: the handler never compares the caller against the order's creator,
so any two callers produce identical results on the same database. -/
theorem C10_approve_caller_independent (c1 c2 oid : Nat) (db : DB) :
    callback_approve c1 oid db = callback_approve c2 oid db := rfl

def exCreator_C5 : UserRec :=
  { tg_id := 10, phone := none, balance_coins := 50000, frozen_total_coins := 50000,
    status := "available", lat := none, lon := none }

def exExec_C5 : UserRec :=
  { tg_id := 20, phone := none, balance_coins := 0, frozen_total_coins := 0,
    status := "available", lat := some 41, lon := some 69 }

def exOrder_C5 : Order :=
  { id := 1, creator_tg := 10, price_coins := 50000, lat := none, lon := none,
    radius_km := 7/2, status := .AWAITING_CLIENT_APPROVAL, frozen_amount := 50000,
    accepted_by := some 20, accept_ts := some 100 }

def exDB_C5 : DB :=
  { users := [exCreator_C5, exExec_C5], orders := [exOrder_C5],
    disputes := [], ratings := [], notifications := [], next_order_id := 2 }

/-- C5: when the auto-release job fires on an order still in
`AWAITING_CLIENT_APPROVAL` with a nonzero `frozen_amount` and an assigned
executor, it produces exactly the same database as `callback_approve` would
(same atomic transfer: executor balance `+= frozen_amount`, creator frozen
`-= frozen_amount`, order `COMPLETED` with `frozen_amount = 0`); whenever
that guard fails, the job leaves the database entirely unchanged. -/
theorem C5_auto_release_spec (oid : Nat) (db : DB) :
    (∀ o e, findOrder db oid = some o →
      o.status = OrderStatus.AWAITING_CLIENT_APPROVAL →
      o.frozen_amount ≠ 0 → o.accepted_by = some e →
      (findUser db e).isSome → (findUser db o.creator_tg).isSome →
      auto_release_task oid db = (callback_approve o.creator_tg oid db).1 ∧
      balanceOf (auto_release_task oid db) e = balanceOf db e + o.frozen_amount ∧
      frozenOf (auto_release_task oid db) o.creator_tg
        = frozenOf db o.creator_tg - o.frozen_amount ∧
      findOrder (auto_release_task oid db) oid
        = some { o with status := OrderStatus.COMPLETED, frozen_amount := 0 }) ∧
    (∀ o, findOrder db oid = some o →
      ¬(o.status = OrderStatus.AWAITING_CLIENT_APPROVAL ∧
        o.frozen_amount ≠ 0 ∧ o.accepted_by.isSome) →
      auto_release_task oid db = db) := by
  constructor
  · intro o e ho hs hfa hacc hue huc
    have heq := auto_release_eq_approve_fst o.creator_tg oid db
    refine ⟨heq, ?_, ?_, ?_⟩
    · rw [heq]
      exact (approve_effects ho hs hfa hacc hue huc).2.1
    · rw [heq]
      exact (approve_effects ho hs hfa hacc hue huc).2.2.1
    · rw [heq]
      exact (approve_effects ho hs hfa hacc hue huc).2.2.2
  · intro o ho hn
    exact auto_release_noop ho hn

theorem C5_witness :
    auto_release_task 1 exDB_C5 = (callback_approve exOrder_C5.creator_tg 1 exDB_C5).1 ∧
    balanceOf (auto_release_task 1 exDB_C5) 20
      = balanceOf exDB_C5 20 + exOrder_C5.frozen_amount ∧
    frozenOf (auto_release_task 1 exDB_C5) exOrder_C5.creator_tg
      = frozenOf exDB_C5 exOrder_C5.creator_tg - exOrder_C5.frozen_amount ∧
    findOrder (auto_release_task 1 exDB_C5) 1
      = some { exOrder_C5 with status := OrderStatus.COMPLETED, frozen_amount := 0 } :=
  (C5_auto_release_spec 1 exDB_C5).1 exOrder_C5 20 rfl rfl (by decide) rfl rfl rfl

def exCreator_C6 : UserRec :=
  { tg_id := 10, phone := none, balance_coins := 50000, frozen_total_coins := 50000,
    status := "available", lat := none, lon := none }

def exOrder_C6 : Order :=
  { id := 1, creator_tg := 10, price_coins := 50000, lat := none, lon := none,
    radius_km := 7/2, status := .AWAITING_CUSTOMER_CONFIRM, frozen_amount := 50000,
    accepted_by := some 20, accept_ts := some 100 }

def exDB_C6 : DB :=
  { users := [exCreator_C6], orders := [exOrder_C6],
    disputes := [], ratings := [], notifications := [], next_order_id := 2 }

/-- C6: from `AWAITING_CUSTOMER_CONFIRM`, `callback_customer_cancel` reports
ok, adds the order's `frozen_amount` back to the creator's balance and
subtracts it from the creator's frozen total (leaving `balance + frozen`
unchanged), clears `accepted_by` and `accept_ts` to NULL, and returns the
order to `PUBLISHED`, after which a fresh accept succeeds; from any other
status the cancel is rejected with the database unchanged. -/
theorem C6_customer_cancel_spec (oid : Nat) (db : DB) :
    (∀ o, findOrder db oid = some o →
      o.status = OrderStatus.AWAITING_CUSTOMER_CONFIRM →
      (findUser db o.creator_tg).isSome →
      (callback_customer_cancel oid db).2 = OpResult.ok ∧
      balanceOf (callback_customer_cancel oid db).1 o.creator_tg
        = balanceOf db o.creator_tg + o.frozen_amount ∧
      frozenOf (callback_customer_cancel oid db).1 o.creator_tg
        = frozenOf db o.creator_tg - o.frozen_amount ∧
      balanceOf (callback_customer_cancel oid db).1 o.creator_tg
          + frozenOf (callback_customer_cancel oid db).1 o.creator_tg
        = balanceOf db o.creator_tg + frozenOf db o.creator_tg ∧
      findOrder (callback_customer_cancel oid db).1 oid
        = some { o with status := OrderStatus.PUBLISHED,
                        accepted_by := none, accept_ts := none } ∧
      (∀ e2 t2, (callback_accept e2 t2 oid (callback_customer_cancel oid db).1).2
        = OpResult.ok)) ∧
    (∀ o, findOrder db oid = some o →
      o.status ≠ OrderStatus.AWAITING_CUSTOMER_CONFIRM →
      callback_customer_cancel oid db = (db, OpResult.rejected)) := by
  constructor
  · intro o ho hs huc
    obtain ⟨h1, h2, h3, h4⟩ := cancel_effects ho hs huc
    refine ⟨h1, h2, h3, by rw [h2, h3]; ring, h4, ?_⟩
    intro e2 t2
    unfold callback_accept
    rw [h4]
    simp
  · intro o ho hs
    exact cancel_rejected_of_status ho hs

theorem C6_witness :
    (callback_customer_cancel 1 exDB_C6).2 = OpResult.ok ∧
    balanceOf (callback_customer_cancel 1 exDB_C6).1 exOrder_C6.creator_tg
      = balanceOf exDB_C6 exOrder_C6.creator_tg + exOrder_C6.frozen_amount ∧
    frozenOf (callback_customer_cancel 1 exDB_C6).1 exOrder_C6.creator_tg
      = frozenOf exDB_C6 exOrder_C6.creator_tg - exOrder_C6.frozen_amount ∧
    balanceOf (callback_customer_cancel 1 exDB_C6).1 exOrder_C6.creator_tg
        + frozenOf (callback_customer_cancel 1 exDB_C6).1 exOrder_C6.creator_tg
      = balanceOf exDB_C6 exOrder_C6.creator_tg + frozenOf exDB_C6 exOrder_C6.creator_tg ∧
    findOrder (callback_customer_cancel 1 exDB_C6).1 1
      = some { exOrder_C6 with status := OrderStatus.PUBLISHED,
                               accepted_by := none, accept_ts := none } ∧
    (∀ e2 t2, (callback_accept e2 t2 1 (callback_customer_cancel 1 exDB_C6).1).2
      = OpResult.ok) :=
  (C6_customer_cancel_spec 1 exDB_C6).1 exOrder_C6 rfl rfl rfl

def exCreator_C9 : UserRec :=
  { tg_id := 10, phone := some "+998901234567", balance_coins := 0,
    frozen_total_coins := 50000, status := "available", lat := none, lon := none }

def exOrder_C9 : Order :=
  { id := 1, creator_tg := 10, price_coins := 50000, lat := none, lon := none,
    radius_km := 7/2, status := .AWAITING_CUSTOMER_CONFIRM, frozen_amount := 50000,
    accepted_by := some 20, accept_ts := some 100 }

def exDB_C9 : DB :=
  { users := [exCreator_C9], orders := [exOrder_C9],
    disputes := [], ratings := [], notifications := [], next_order_id := 2 }

/-- C9: the confirmation-timeout task never writes to the database: the
result state is always exactly the input state, so every order field,
balance and frozen total is untouched.  It emits the escalation message
(to the assigned executor, carrying the creator's phone) precisely when the
order is still `AWAITING_CUSTOMER_CONFIRM` with a non-NULL `accepted_by`, and
emits nothing otherwise. -/
theorem C9_accept_timeout_frame (oid : Nat) (db : DB) :
    (accept_timeout_task oid db).1 = db ∧
    (∀ o e, findOrder db oid = some o →
      o.status = OrderStatus.AWAITING_CUSTOMER_CONFIRM → o.accepted_by = some e →
      (accept_timeout_task oid db).2
        = some (e, ((findUser db o.creator_tg).map (fun u => u.phone)).getD none)) ∧
    (∀ o, findOrder db oid = some o →
      ¬(o.status = OrderStatus.AWAITING_CUSTOMER_CONFIRM ∧ o.accepted_by.isSome) →
      (accept_timeout_task oid db).2 = none) := by
  refine ⟨?_, ?_, ?_⟩
  · unfold accept_timeout_task
    cases ho : findOrder db oid
    · rfl
    · rename_i o
      by_cases hs : o.status = OrderStatus.AWAITING_CUSTOMER_CONFIRM
      · cases hacc : o.accepted_by <;> simp [hs, hacc]
      · simp [hs]
  · intro o e ho hs hacc
    unfold accept_timeout_task
    rw [ho]
    simp [hs, hacc]
  · intro o ho hn
    unfold accept_timeout_task
    rw [ho]
    by_cases hs : o.status = OrderStatus.AWAITING_CUSTOMER_CONFIRM
    · cases hacc : o.accepted_by
      · simp [hs, hacc]
      · exact absurd ⟨hs, by simp [hacc]⟩ hn
    · simp [hs]

theorem C9_witness :
    (accept_timeout_task 1 exDB_C9).1 = exDB_C9 ∧
    (accept_timeout_task 1 exDB_C9).2
      = some (20, ((findUser exDB_C9 exOrder_C9.creator_tg).map
          (fun u => u.phone)).getD none) :=
  ⟨(C9_accept_timeout_frame 1 exDB_C9).1,
   (C9_accept_timeout_frame 1 exDB_C9).2.1 exOrder_C9 20 rfl rfl rfl⟩

def exUser_C1 : UserRec :=
  { tg_id := 10, phone := none, balance_coins := 0, frozen_total_coins := 0,
    status := "available", lat := none, lon := none }

def exOrder_C1 : Order :=
  { id := 1, creator_tg := 10, price_coins := 5, lat := none, lon := none,
    radius_km := 7/2, status := .AWAITING_CUSTOMER_CONFIRM, frozen_amount := 5,
    accepted_by := some 20, accept_ts := some 100 }

def exDB_C1 : DB :=
  { users := [exUser_C1], orders := [exOrder_C1],
    disputes := [], ratings := [], notifications := [], next_order_id := 2 }

/-- C1 counterexample: on a database where the creator's frozen total (0) does
not cover the order's `frozen_amount` (5), `callback_customer_cancel` is not
refused: it reports ok and silently drives the creator's `frozen_total_coins`
to -5, so no fatal invariant-breach check exists. -/
theorem C1_counterexample :
    (callback_customer_cancel 1 exDB_C1).2 = OpResult.ok ∧
    frozenOf (callback_customer_cancel 1 exDB_C1).1 10 = -5 := by
  constructor <;> rfl

/-- C1 (amended): the `release` mutation of customer cancel and the `transfer`
mutation of auto-release are applied unconditionally once the state guard
passes — the creator's frozen total always becomes its old value minus the
order's `frozen_amount`, with no negativity check, no refusal and no logging
path; a state in which the subtraction goes negative is mutated silently. -/
theorem C1_ledger_mutation_unchecked (oid : Nat) (db : DB) :
    (∀ o, findOrder db oid = some o →
      o.status = OrderStatus.AWAITING_CUSTOMER_CONFIRM →
      (findUser db o.creator_tg).isSome →
      (callback_customer_cancel oid db).2 = OpResult.ok ∧
      frozenOf (callback_customer_cancel oid db).1 o.creator_tg
        = frozenOf db o.creator_tg - o.frozen_amount) ∧
    (∀ o e, findOrder db oid = some o →
      o.status = OrderStatus.AWAITING_CLIENT_APPROVAL →
      o.frozen_amount ≠ 0 → o.accepted_by = some e →
      (findUser db e).isSome → (findUser db o.creator_tg).isSome →
      frozenOf (auto_release_task oid db) o.creator_tg
        = frozenOf db o.creator_tg - o.frozen_amount) := by
  constructor
  · intro o ho hs huc
    obtain ⟨h1, _, h3, _⟩ := cancel_effects ho hs huc
    exact ⟨h1, h3⟩
  · intro o e ho hs hfa hacc hue huc
    rw [auto_release_eq_approve_fst o.creator_tg oid db]
    exact (approve_effects ho hs hfa hacc hue huc).2.2.1

theorem C1_witness :
    (callback_customer_cancel 1 exDB_C1).2 = OpResult.ok ∧
    frozenOf (callback_customer_cancel 1 exDB_C1).1 exOrder_C1.creator_tg
      = frozenOf exDB_C1 exOrder_C1.creator_tg - exOrder_C1.frozen_amount :=
  (C1_ledger_mutation_unchecked 1 exDB_C1).1 exOrder_C1 rfl rfl rfl

def exOrder_C4 : Order :=
  { id := 1, creator_tg := 10, price_coins := 50000, lat := none, lon := none,
    radius_km := 7/2, status := .COMPLETED, frozen_amount := 0,
    accepted_by := some 20, accept_ts := some 100 }

def exDB_C4 : DB :=
  { users := [], orders := [exOrder_C4],
    disputes := [], ratings := [], notifications := [], next_order_id := 2 }

/-- C4 counterexample: `callback_open_dispute` on an order already in state
`COMPLETED` is not rejected: it reports ok, inserts a dispute row, and moves
the completed order to `DISPUTE`, because the handler never checks the order's
current status. -/
theorem C4_counterexample :
    (callback_open_dispute 99 1 exDB_C4).2 = DisputeResult.ok ∧
    findOrder (callback_open_dispute 99 1 exDB_C4).1 1
      = some { exOrder_C4 with status := OrderStatus.DISPUTE } ∧
    (callback_open_dispute 99 1 exDB_C4).1.disputes
      = [{ order_id := 1, claimant_tg := 99 }] := by
  refine ⟨rfl, rfl, rfl⟩

/-- C4 (amended): `callback_open_dispute` succeeds at most once per order
regardless of the order's state: when no dispute row exists for the order the
call reports ok, appends exactly one dispute row (so exactly one row for this
order exists afterwards) and moves the order — from any state, COMPLETED
included — to `DISPUTE`; when a dispute row already exists the call is
rejected with "already open" and the database is unchanged. -/
theorem C4_open_dispute_spec (claimant oid : Nat) (db : DB) :
    (∀ o, findOrder db oid = some o →
      db.disputes.any (fun d => d.order_id == oid) = false →
      (callback_open_dispute claimant oid db).2 = DisputeResult.ok ∧
      (callback_open_dispute claimant oid db).1.disputes
        = db.disputes ++ [{ order_id := oid, claimant_tg := claimant }] ∧
      ((callback_open_dispute claimant oid db).1.disputes.filter
          (fun d => d.order_id == oid)).length = 1 ∧
      findOrder (callback_open_dispute claimant oid db).1 oid
        = some { o with status := OrderStatus.DISPUTE }) ∧
    (∀ o, findOrder db oid = some o →
      db.disputes.any (fun d => d.order_id == oid) = true →
      callback_open_dispute claimant oid db = (db, DisputeResult.already_open)) := by
  constructor
  · intro o ho hno
    have hstep : callback_open_dispute claimant oid db =
        (updateOrder
          { db with disputes :=
              db.disputes ++ [{ order_id := oid, claimant_tg := claimant }] }
          oid (fun od => { od with status := OrderStatus.DISPUTE }),
         DisputeResult.ok) := by
      unfold callback_open_dispute
      rw [ho]
      simp [hno]
    rw [hstep]
    refine ⟨rfl, rfl, ?_, ?_⟩
    · show ((db.disputes ++ [({ order_id := oid, claimant_tg := claimant } : Dispute)]).filter
          (fun d => d.order_id == oid)).length = 1
      rw [List.filter_append]
      have hnil : db.disputes.filter (fun d => d.order_id == oid) = [] := by
        rw [List.filter_eq_nil_iff]
        intro d hd
        exact List.any_eq_false.mp hno d hd
      rw [hnil]
      simp
    · have ho2 : findOrder
          { db with disputes :=
              db.disputes ++ [{ order_id := oid, claimant_tg := claimant }] }
          oid = some o := ho
      exact findOrder_updateOrder_self (fun x => rfl) ho2
  · intro o ho hyes
    unfold callback_open_dispute
    rw [ho]
    simp [hyes]

theorem C4_witness :
    (callback_open_dispute 99 1 exDB_C4).2 = DisputeResult.ok ∧
    (callback_open_dispute 99 1 exDB_C4).1.disputes
      = exDB_C4.disputes ++ [{ order_id := 1, claimant_tg := 99 }] ∧
    ((callback_open_dispute 99 1 exDB_C4).1.disputes.filter
        (fun d => d.order_id == 1)).length = 1 ∧
    findOrder (callback_open_dispute 99 1 exDB_C4).1 1
      = some { exOrder_C4 with status := OrderStatus.DISPUTE } :=
  (C4_open_dispute_spec 99 1 exDB_C4).1 exOrder_C4 rfl rfl

def exDB_C7 : DB :=
  { users := [], orders := [], disputes := [], ratings := [],
    notifications := [], next_order_id := 1 }

def exDB_C7b : DB :=
  { users := [], orders := [], disputes := [],
    ratings := [{ order_id := 1, from_tg := 20, to_tg := 7, stars := some 4,
                  comment := none }],
    notifications := [], next_order_id := 1 }

/-- C7 counterexample: for a user with no rated rows, `compute_avg_rating`
returns None (SQL `AVG` over zero rows), not the seeded default 5.0: its
callers render the None as a dash, and the `rating_sum = 5, rating_count = 1`
seed in the users table is never consulted by this computation. -/
theorem C7_counterexample :
    compute_avg_rating exDB_C7 7 = none ∧ compute_avg_rating exDB_C7 7 ≠ some 5 := by
  refine ⟨rfl, ?_⟩
  intro h
  rw [show compute_avg_rating exDB_C7 7 = none from rfl] at h
  exact Option.noConfusion h

/-- C7 (amended): `compute_avg_rating` returns the arithmetic mean of all
non-null `stars` values targeting the user whenever at least one such row
exists, and returns None — not the seeded default 5.0 — when no such row
exists. -/
theorem C7_avg_rating_spec (db : DB) (u : Nat) :
    (starsReceived db u = [] → compute_avg_rating db u = none) ∧
    (starsReceived db u ≠ [] →
      compute_avg_rating db u
        = some (((starsReceived db u).sum : ℚ) / ((starsReceived db u).length : ℚ))) := by
  constructor
  · intro h
    unfold compute_avg_rating
    simp [h]
  · intro h
    unfold compute_avg_rating
    have hlen : (starsReceived db u).length ≠ 0 := by
      intro hl
      exact h (List.length_eq_zero.mp hl)
    simp [hlen]

theorem C7_witness :
    compute_avg_rating exDB_C7b 7
      = some (((starsReceived exDB_C7b 7).sum : ℚ)
          / ((starsReceived exDB_C7b 7).length : ℚ)) :=
  (C7_avg_rating_spec exDB_C7b 7).2 (by decide)

/-- C8: one tick of `expansion_job` on a database with unique order ids,
viewed at any single order: when the order is a located `PUBLISHED` order and
a full step fits under the cap, its radius becomes `radius + step`; when the
step would overshoot the cap, or the order is not in the tick's selection, the
order row is entirely unchanged; in all cases the radius never decreases
(for a non-negative step) and never exceeds the configured maximum. -/
theorem C8_expansion_radius (fE : ℚ → ℚ → ℚ → List Nat) (step maxR : ℚ)
    (db : DB) (oid : Nat) (o : Order)
    (hnd : (db.orders.map (fun x => x.id)).Nodup)
    (ho : findOrder db oid = some o)
    (hstep : 0 ≤ step) (hcap : o.radius_km ≤ maxR) :
    ∃ o2, findOrder (expansion_job fE step maxR db) oid = some o2 ∧
      (isPublishedLocated o = true → o.radius_km + step ≤ maxR →
        o2 = { o with radius_km := o.radius_km + step }) ∧
      (maxR < o.radius_km + step → o2 = o) ∧
      (isPublishedLocated o = false → o2 = o) ∧
      o.radius_km ≤ o2.radius_km ∧ o2.radius_km ≤ maxR := by
  unfold expansion_job
  by_cases hmem : oid ∈ (db.orders.filter isPublishedLocated).map (fun x => x.id)
  · have hP : isPublishedLocated o = true := (oid_mem_ids_iff hnd ho).mp hmem
    obtain ⟨s, t, hst⟩ := List.append_of_mem hmem
    have hnd_ids := ids_nodup hnd
    rw [hst] at hnd_ids
    have h1 : oid ∉ s := by
      have hdisj := List.disjoint_of_nodup_append hnd_ids
      intro hsmem
      exact hdisj hsmem (List.mem_cons_self _ _)
    have h2 : oid ∉ t := by
      have hnt := (List.nodup_append.mp hnd_ids).2.1
      exact (List.nodup_cons.mp hnt).1
    rw [hst, List.foldl_append, List.foldl_cons]
    have hfs : findOrder
        (s.foldl (fun d i => expansion_order_step fE step maxR i d) db) oid
        = some o := by
      rw [foldl_expansion_preserves s h1]
      exact ho
    rw [foldl_expansion_preserves t h2, expansion_step_self hfs]
    by_cases hgt : o.radius_km + step > maxR
    · refine ⟨o, by rw [if_pos hgt], ?_, fun _ => rfl, fun _ => rfl, le_refl _, hcap⟩
      intro _ hle
      exact absurd hgt (not_lt.mpr hle)
    · refine ⟨{ o with radius_km := o.radius_km + step }, by rw [if_neg hgt],
        fun _ _ => rfl, ?_, ?_, ?_, ?_⟩
      · intro hlt
        exact absurd hlt hgt
      · intro hPf
        rw [hP] at hPf
        exact Bool.noConfusion hPf
      · exact le_add_of_nonneg_right hstep
      · exact not_lt.mp hgt
  · have hfo : findOrder
        (((db.orders.filter isPublishedLocated).map (fun x => x.id)).foldl
          (fun d i => expansion_order_step fE step maxR i d) db) oid = some o := by
      rw [foldl_expansion_preserves _ hmem]
      exact ho
    refine ⟨o, hfo, ?_, fun _ => rfl, fun _ => rfl, le_refl _, hcap⟩
    intro hP _
    exact absurd ((oid_mem_ids_iff hnd ho).mpr hP) hmem

def exFE_C8 : ℚ → ℚ → ℚ → List Nat := fun _ _ _ => []

def exOrder_C8 : Order :=
  { id := 1, creator_tg := 10, price_coins := 100, lat := some 41, lon := some 69,
    radius_km := 7/2, status := .PUBLISHED, frozen_amount := 100,
    accepted_by := none, accept_ts := none }

def exDB_C8 : DB :=
  { users := [], orders := [exOrder_C8],
    disputes := [], ratings := [], notifications := [], next_order_id := 2 }

theorem C8_witness :
    ∃ o2, findOrder (expansion_job exFE_C8 1 30 exDB_C8) 1 = some o2 ∧
      (isPublishedLocated exOrder_C8 = true → exOrder_C8.radius_km + 1 ≤ 30 →
        o2 = { exOrder_C8 with radius_km := exOrder_C8.radius_km + 1 }) ∧
      (30 < exOrder_C8.radius_km + 1 → o2 = exOrder_C8) ∧
      (isPublishedLocated exOrder_C8 = false → o2 = exOrder_C8) ∧
      exOrder_C8.radius_km ≤ o2.radius_km ∧ o2.radius_km ≤ 30 :=
  C8_expansion_radius exFE_C8 1 30 exDB_C8 1 exOrder_C8 (by decide) rfl
    (by norm_num) (by norm_num [exOrder_C8])
